import Mathlib

/-!
Verification of the Wikimetron scoring pipeline
(`backend/wikimetron/metrics/`), a shallow embedding in Lean 4.

Strings are modelled by `String` / `List Char`; Python floats by `ℚ`
(the pipeline only performs field arithmetic on them); pandas Series
keyed by page are modelled by association lists or functions; a Python
call that may raise is modelled by `Except String` / `Option`.

Layout: first the embedded definitions, translated from the Python
sources file by file, then the theorems about them.
-/

namespace Wikimetron

/-! ## Data model (`pipeline.py`) -/

/-- Record for one resolved input page, mirroring the `PageInfo` dataclass
of `pipeline.py`. -/
structure PageInfo where
  original_input : String
  clean_title : String
  language : String
  unique_key : String
deriving DecidableEq, Repr

/-- The fixed heat-category weights `HEAT_W` of `pipeline.py`. -/
def HEAT_W : List (String × ℚ) :=
  [("Views spikes", 5), ("Edits spikes", 4), ("Edits revert probability", 3),
   ("Protection", 2), ("Discussion intensity", 1)]

/-- The fixed quality-category weights `QUAL_W` of `pipeline.py`. -/
def QUAL_W : List (String × ℚ) :=
  [("Suspicious sources", 10), ("Featured article", 10), ("Citation gaps", 3),
   ("Staleness", 2), ("Source concentration", 2), ("Add/delete ratio", 1)]

/-- The fixed risk-category weights `RISK_W` of `pipeline.py`. -/
def RISK_W : List (String × ℚ) :=
  [("Sockpuppets", 10), ("Anonymity", 5), ("Contributors concentration", 3),
   ("Sporadicity", 2), ("Contributor add/delete ratio", 1)]

/-- `MAX_WORKERS` constant of `pipeline.py`. -/
def MAX_WORKERS : ℕ := 16

/-- The sixteen metric names registered in `metric_configs` of
`collect_metrics_parallel_multilang`, in source order. -/
def metric_names : List String :=
  ["Views spikes", "Edits spikes", "Protection", "Citation gaps",
   "Add/delete ratio", "Staleness", "Featured article",
   "Contributor add/delete ratio", "Contributors concentration", "Sporadicity",
   "Source concentration", "Discussion intensity", "Anonymity",
   "Suspicious sources", "Edits revert probability", "Sockpuppets"]

/-! ## Scorer (`compute_scores_multilang`)

For a single page (a row of the metric matrix) the category score is
computed by `calc_score`: the weighted sum of the metric columns that are
present, divided by the sum of the corresponding weights.  `vals` gives
the cell of the row for each metric name (after the ×100 scaling applied
by the work-item executor); `cols` is the column set of the DataFrame. -/

/-- One category score for one page: the pair `(normalized, raw)` produced
by the inner `calc_score` of `compute_scores_multilang`. -/
def calc_score (weights : List (String × ℚ)) (cols : List String)
    (vals : String → ℚ) : ℚ × ℚ :=
  let available := weights.filter (fun mw => cols.contains mw.1)
  if available.isEmpty then (0, 0)
  else
    let raw := (available.map (fun mw => mw.2 * vals mw.1)).sum
    (raw / (available.map (fun mw => mw.2)).sum, raw)

/-- The per-page slice of a `ScoringResult`: the four composite scores and
the three raw sums, as assembled by `compute_scores_multilang`. -/
structure ScoringPage where
  heat : ℚ
  quality : ℚ
  risk : ℚ
  sensitivity : ℚ
  heat_raw : ℚ
  quality_raw : ℚ
  risk_raw : ℚ
deriving Repr

/-- The scorer for one page: `heat`, `quality`, `risk` from the three weight
tables, then `sensitivity = (heat + quality + risk) / 3.0`, exactly as in
`compute_scores_multilang` (`pipeline.py` lines 462-478). -/
def compute_scores_page (cols : List String) (vals : String → ℚ) : ScoringPage :=
  let h := calc_score HEAT_W cols vals
  let q := calc_score QUAL_W cols vals
  let r := calc_score RISK_W cols vals
  { heat := h.1, quality := q.1, risk := r.1
    sensitivity := (h.1 + q.1 + r.1) / 3
    heat_raw := h.2, quality_raw := q.2, risk_raw := r.2 }

/-! ## String utilities

Models of the Python string operations used by the pipeline, over
`List Char`. -/

/-- Does `l` start with `pre`? (Python `str.startswith`.) -/
def startsWithChars : List Char → List Char → Bool
  | _, [] => true
  | [], _ :: _ => false
  | c :: l, p :: ps => c == p && startsWithChars l ps

/-- Index of the first occurrence of `pat` in `l`, if any. -/
def findSub (pat : List Char) : List Char → Option ℕ
  | [] => if pat.isEmpty then some 0 else none
  | c :: l => if startsWithChars (c :: l) pat then some 0
      else (findSub pat l).map (· + 1)

/-- Python's substring test `pat in l`. -/
def containsSub (pat l : List Char) : Bool := (findSub pat l).isSome

/-- The part of `l` strictly before the first occurrence of `pat` (all of
`l` when `pat` does not occur): the head of Python's `l.split(pat)`. -/
def beforeSub (pat l : List Char) : List Char :=
  match findSub pat l with
  | none => l
  | some i => l.take i

/-- The part of `l` strictly after the first occurrence of `pat`; `none`
when `pat` does not occur. -/
def afterSub (pat l : List Char) : Option (List Char) :=
  (findSub pat l).map (fun i => l.drop (i + pat.length))

/-! ## `urllib.parse` models -/

/-- Characters Python's `urlparse` accepts in a URL scheme. -/
def isSchemeChar (c : Char) : Bool :=
  c.isAlphanum || c == '+' || c == '-' || c == '.'

/-- Model of `urllib.parse.urlparse` restricted to the two components the
resolver reads, returning `(netloc, path)` or the `ValueError` the parser
raises.  As CPython does, the unsafe bytes `\t`, `\r`, `\n` are removed
from the whole URL first; a syntactically valid scheme is stripped;
`netloc` is present only after a literal `//` and runs to the first `/`,
`?` or `#`; a netloc with unbalanced square brackets raises
`Invalid IPv6 URL`; `path` is the remainder up to the first `?` or `#`
(query and fragment are discarded).  Two raise paths of CPython are not
modelled and are excluded by hypothesis in the theorems that quantify
over inputs: the version-dependent validation of a *balanced* bracketed
host, and the NFKC check, which is vacuous for ASCII netlocs.  (The
leading C0-control/space strip is unreachable here: the resolver only
parses inputs starting with `"http"`.) -/
def urlparse_netloc_path (s : String) : Except String (String × String) :=
  let cs := s.data.filter (fun c => !(c == '\t' || c == '\r' || c == '\n'))
  let rest :=
    match findSub [':'] cs with
    | some i =>
        let sch := cs.take i
        if 0 < i && sch.all isSchemeChar && (sch.headD ' ').isAlpha then
          cs.drop (i + 1)
        else cs
    | none => cs
  if startsWithChars rest ['/', '/'] then
    let after := rest.drop 2
    let netloc := after.takeWhile (fun c => !(c == '/' || c == '?' || c == '#'))
    if netloc.contains '[' != netloc.contains ']' then
      Except.error "Invalid IPv6 URL"
    else
      let path := (after.drop netloc.length).takeWhile (fun c => !(c == '?' || c == '#'))
      Except.ok (⟨netloc⟩, ⟨path⟩)
  else
    Except.ok (⟨[]⟩, ⟨rest.takeWhile (fun c => !(c == '?' || c == '#'))⟩)

/-- Numeric value of a hexadecimal digit, if `c` is one (the `%XX` escapes
of `unquote` accept both cases). -/
def hexVal (c : Char) : Option ℕ :=
  let n := c.toNat
  if 48 ≤ n ∧ n ≤ 57 then some (n - 48)
  else if 97 ≤ n ∧ n ≤ 102 then some (n - 87)
  else if 65 ≤ n ∧ n ≤ 70 then some (n - 55)
  else none

/-- The Unicode replacement character emitted by `errors="replace"`. -/
def replacementChar : Char := '�'

/-- Is `b` a UTF-8 continuation byte? -/
def utf8Cont (b : ℕ) : Bool := 0x80 ≤ b && b ≤ 0xBF

/-- May `b2` follow the three-byte lead `b`?  (`E0` forbids overlong
encodings, `ED` forbids surrogates.) -/
def utf8Cont3 (b b2 : ℕ) : Bool :=
  utf8Cont b2 && (b == 0xE0 → 0xA0 ≤ b2) && (b == 0xED → b2 ≤ 0x9F)

/-- May `b2` follow the four-byte lead `b`?  (`F0` forbids overlong
encodings, `F4` caps the code point at `U+10FFFF`.) -/
def utf8Cont4 (b b2 : ℕ) : Bool :=
  utf8Cont b2 && (b == 0xF0 → 0x90 ≤ b2) && (b == 0xF4 → b2 ≤ 0x8F)

/-- Decode a byte sequence as UTF-8 the way
`bytes.decode("utf-8", "replace")` does: one replacement character per
*maximal subpart* of an ill-formed sequence — a valid prefix of a
multi-byte sequence is consumed as a whole for a single replacement, and
decoding resumes at the first byte that does not fit. -/
def utf8Decode : List ℕ → List Char
  | [] => []
  | b :: bs =>
    if b < 0x80 then Char.ofNat b :: utf8Decode bs
    else if 0xC2 ≤ b && b ≤ 0xDF then
      match bs with
      | b2 :: bs2 =>
        if utf8Cont b2 then
          Char.ofNat ((b - 0xC0) * 0x40 + (b2 - 0x80)) :: utf8Decode bs2
        else replacementChar :: utf8Decode (b2 :: bs2)
      | [] => [replacementChar]
    else if 0xE0 ≤ b && b ≤ 0xEF then
      match bs with
      | b2 :: b3 :: bs3 =>
        if utf8Cont3 b b2 then
          if utf8Cont b3 then
            Char.ofNat ((b - 0xE0) * 0x1000 + (b2 - 0x80) * 0x40 + (b3 - 0x80)) ::
              utf8Decode bs3
          else replacementChar :: utf8Decode (b3 :: bs3)
        else replacementChar :: utf8Decode (b2 :: b3 :: bs3)
      | [b2] =>
        if utf8Cont3 b b2 then [replacementChar]
        else replacementChar :: utf8Decode [b2]
      | [] => [replacementChar]
    else if 0xF0 ≤ b && b ≤ 0xF4 then
      match bs with
      | b2 :: b3 :: b4 :: bs4 =>
        if utf8Cont4 b b2 then
          if utf8Cont b3 then
            if utf8Cont b4 then
              Char.ofNat ((b - 0xF0) * 0x40000 + (b2 - 0x80) * 0x1000 +
                  (b3 - 0x80) * 0x40 + (b4 - 0x80)) :: utf8Decode bs4
            else replacementChar :: utf8Decode (b4 :: bs4)
          else replacementChar :: utf8Decode (b3 :: b4 :: bs4)
        else replacementChar :: utf8Decode (b2 :: b3 :: b4 :: bs4)
      | [b2, b3] =>
        if utf8Cont4 b b2 then
          if utf8Cont b3 then [replacementChar]
          else replacementChar :: utf8Decode [b3]
        else replacementChar :: utf8Decode [b2, b3]
      | [b2] =>
        if utf8Cont4 b b2 then [replacementChar]
        else replacementChar :: utf8Decode [b2]
      | [] => [replacementChar]
    else replacementChar :: utf8Decode bs

/-- Worker for `unquote`: `acc` holds the bytes of the current maximal run
of `%XX` escapes, most recent first; the run is UTF-8-decoded when it
ends. -/
def unquoteAux (acc : List ℕ) : List Char → List Char
  | '%' :: h1 :: h2 :: rest =>
    match hexVal h1, hexVal h2 with
    | some a, some b => unquoteAux ((a * 16 + b) :: acc) rest
    | _, _ => utf8Decode acc.reverse ++ '%' :: unquoteAux [] (h1 :: h2 :: rest)
  | c :: cs => utf8Decode acc.reverse ++ c :: unquoteAux [] cs
  | [] => utf8Decode acc.reverse

/-- Model of `urllib.parse.unquote`: maximal runs of `%XX` escapes are
decoded as UTF-8 byte sequences; everything else, including malformed
escapes, passes through unchanged. -/
def unquote (l : List Char) : List Char := unquoteAux [] l

/-! ## Page resolver (`pipeline.py`) -/

/-- The `extract_clean_title_and_language` function of `pipeline.py`: for
an input starting with `"http"` whose parsed netloc contains
`"wikipedia.org"` and whose path contains `"/wiki/"`, the clean title is
the percent-decoded first path segment after `/wiki/` with underscores
turned into spaces, and the language is the netloc up to its first dot;
any other input — including one on which `urlparse` raises, absorbed by
the function's `try`/`except` — is returned unchanged with no
language. -/
def extract_clean_title_and_language (input_str : String) : String × Option String :=
  if startsWithChars input_str.data "http".data then
    match urlparse_netloc_path input_str with
    | Except.error _ => (input_str, none)
    | Except.ok np =>
      if containsSub "wikipedia.org".data np.1.data &&
          containsSub "/wiki/".data np.2.data then
        let lang : String := ⟨np.1.data.takeWhile (fun c => !(c == '.'))⟩
        let raw_title :=
          match afterSub "/wiki/".data np.2.data with
          | some rest => beforeSub "/wiki/".data rest
          | none => []
        let clean_title : String :=
          ⟨unquote (raw_title.map (fun c => if c == '_' then ' ' else c))⟩
        (clean_title, some lang)
      else (input_str, none)
  else (input_str, none)

/-- One step of `prepare_pages_with_languages`: the `(clean_title,
final_lang)` pair for one input, where `final_lang` is the detected
language unless it is absent or empty (Python truthiness of
`detected_lang`), in which case the default applies. -/
def page_resolution (input default_language : String) : String × String :=
  let td := extract_clean_title_and_language input
  let lang :=
    match td.2 with
    | some l => if l.isEmpty then default_language else l
    | none => default_language
  (td.1, lang)

/-- The `prepare_pages_with_languages` function of `pipeline.py`: one
`PageInfo` per input string, in order, with
`unique_key = clean_title ++ "___" ++ language`. -/
def prepare_pages_with_languages (pages : List String)
    (default_language : String) : List PageInfo :=
  pages.map (fun original_page =>
    let r := page_resolution original_page default_language
    { original_input := original_page, clean_title := r.1, language := r.2,
      unique_key := r.1 ++ "___" ++ r.2 })

/-- `group_pages_by_language` restricted to one language: the pages of
that language, in input order (Python's `defaultdict` grouping preserves
both key insertion order and per-key page order). -/
def lang_group (page_infos : List PageInfo) (lang : String) : List PageInfo :=
  page_infos.filter (fun p => p.language == lang)

/-- The distinct languages of the input in first-appearance order: the key
list of `group_pages_by_language`. -/
def langs_of (page_infos : List PageInfo) : List String :=
  (page_infos.map (fun p => p.language)).eraseDups

/-- Worker for `split_pages_into_batches`: `acc` holds the current
partial batch, most recent page first. -/
def split_batches_go (batch_size : ℕ) : List PageInfo → List PageInfo → List (List PageInfo)
  | [], acc => if acc.isEmpty then [] else [acc.reverse]
  | p :: ps, acc =>
    if (p :: acc).length = batch_size then
      (p :: acc).reverse :: split_batches_go batch_size ps []
    else split_batches_go batch_size ps (p :: acc)

/-- The `split_pages_into_batches` function of `pipeline.py`: consecutive
batches of `batch_size` pages, the last one possibly shorter.  (Python
raises `ValueError` on `batch_size = 0`; the pipeline always passes a
positive size, and the model returns no batches in that unreachable
case.) -/
def split_pages_into_batches (pages : List PageInfo) (batch_size : ℕ) :
    List (List PageInfo) :=
  if batch_size = 0 then [] else split_batches_go batch_size pages []

/-- The `total_batches` counter of `collect_metrics_parallel_multilang`:
the number of `(language, batch)` pairs, i.e. the sum over languages of
that language's batch count. -/
def total_batches (page_infos : List PageInfo) (batch_size : ℕ) : ℕ :=
  ((langs_of page_infos).map
    (fun l => (split_pages_into_batches (lang_group page_infos l) batch_size).length)).sum

/-- The dynamic worker-pool sizing of `collect_metrics_parallel_multilang`
(lines 341-346): thresholds applied to its `total_batches` argument. -/
def dynamic_workers (batches max_workers : ℕ) : ℕ :=
  if batches > 100 then min (max_workers * 3) 48
  else if batches > 50 then min (max_workers * 2) 32
  else max_workers

/-- The Cartesian work set submitted to the pool: one
`(metric, language, batch)` triple per metric, language and batch, in
the order of the triple loop of `collect_metrics_parallel_multilang`. -/
def work_items (page_infos : List PageInfo) (batch_size : ℕ) :
    List (String × String × List PageInfo) :=
  metric_names.flatMap (fun m =>
    (langs_of page_infos).flatMap (fun l =>
      (split_pages_into_batches (lang_group page_infos l) batch_size).map
        (fun b => (m, l, b))))

/-! ## Work-item executor (`execute_single_metric_lang_batch`)

A collector call either yields a result list `{title → score}` or raises;
the executor's `try`/`except` turns any raised exception into an all-zero
map over its batch. -/

/-- The post-processing of a successful collector result (`pipeline.py`
lines 200-205): for every page of the batch, look its title up in the raw
result (`0.0` when absent) and scale by 100. -/
def finalize_batch (raw : List (String × ℚ)) (batch : List PageInfo) :
    List (String × ℚ) :=
  batch.map (fun p => (p.clean_title, ((raw.lookup p.clean_title).getD 0) * 100))

/-- The executor around one collector call: the `try` branch finalizes the
collector's result, the `except` branch (line 209-211) maps every page of
the batch to `0.0`. -/
def execute_work_item (outcome : Except String (List (String × ℚ)))
    (batch : List PageInfo) : List (String × ℚ) :=
  match outcome with
  | Except.ok raw => finalize_batch raw batch
  | Except.error _ => batch.map (fun p => (p.clean_title, 0))

/-! ## Python positional-call models (C3, C5)

Two collector invocations in `execute_single_metric_lang_batch` go wrong
at the call boundary; they are modelled by explicit positional-argument
binding against the callee's signature. -/

/-- A Python argument value, as far as the faulty calls need: a string, a
list of strings, or `None`. -/
inductive PyArg where
  | vstr : String → PyArg
  | vlist : List String → PyArg
  | vnone : PyArg
deriving DecidableEq, Repr

/-- Bind positional arguments to named parameters with default values:
each supplied argument replaces the default of the parameter in its
position. -/
def bind_positional (params : List (String × PyArg)) (args : List PyArg) :
    List (String × PyArg) :=
  match params, args with
  | [], _ => []
  | (n, d) :: ps, [] => (n, d) :: bind_positional ps []
  | (n, _) :: ps, a :: rest => (n, a) :: bind_positional ps rest

/-- The signature of `get_user_detection_score` in `faux_nez.py`:
`(pages, csv_path=None, users=None, lang="fr")`.  (`pages` has no Python
default; it is always bound, so the placeholder is never read.) -/
def get_user_detection_score_params : List (String × PyArg) :=
  [("pages", PyArg.vnone), ("csv_path", PyArg.vnone), ("users", PyArg.vnone),
   ("lang", PyArg.vstr "fr")]

/-- The Sockpuppets dispatch of `execute_single_metric_lang_batch`
(line 178-179): `metric_func(titles, extra_args[0], lang)` — three
positional arguments against the four-parameter signature above. -/
def sockpuppets_call_bindings (titles : List String) (csv_path lang : String) :
    List (String × PyArg) :=
  bind_positional get_user_detection_score_params
    [PyArg.vlist titles, PyArg.vstr csv_path, PyArg.vstr lang]

/-- The MediaWiki API URL built by `get_page_contributors` in
`faux_nez.py` (line 48) from its `lang` parameter. -/
def get_page_contributors_api_url (lang : String) : String :=
  "https://" ++ lang ++ ".wikipedia.org/w/api.php"

/-- Positional call with arity check, modelling Python's `TypeError` when
more arguments are supplied than the callee has parameters (or fewer than
are required). -/
def py_call {α : Type} (required max_params given : ℕ) (result : α) :
    Except String α :=
  if required ≤ given ∧ given ≤ max_params then Except.ok result
  else Except.error "TypeError"

/-- `get_recency_score(pages, lang="fr", max_days=365)` in `last_edit.py`
has one required and three total parameters. -/
def get_recency_score_required : ℕ := 1

/-- Total parameter count of `get_recency_score`. -/
def get_recency_score_params : ℕ := 3

/-- The Staleness dispatch of `execute_single_metric_lang_batch`
(line 176-177) passes four positional arguments:
`metric_func(titles, lang, 365, extra_args[-1])`. -/
def staleness_call_arg_count : ℕ := 4

/-- The Staleness work item end to end: the four-argument call is made
against the three-parameter `get_recency_score`, and the executor handles
the outcome.  `collector_result` is whatever the collector body would
return if the call were ever entered. -/
def execute_staleness_item (collector_result : List (String × ℚ))
    (batch : List PageInfo) : List (String × ℚ) :=
  execute_work_item
    (py_call get_recency_score_required get_recency_score_params
      staleness_call_arg_count collector_result) batch

/-! ## Result aggregation (`collect_metrics_parallel_multilang`, step 4)

The accumulator `results_accumulator[metric][unique_key] = score` is
modelled as an association list with the most recent write first. -/

/-- The `(clean_title, language) → unique_key` index (`lookup_map`,
line 297); a later duplicate overwrites an earlier one, as in a Python
dict comprehension. -/
def lookup_map_of (page_infos : List PageInfo) (title lang : String) :
    Option String :=
  (page_infos.reverse.find? (fun p => p.clean_title == title && p.language == lang)).map
    (fun p => p.unique_key)

/-- Write one completed work item's results into the accumulator: each
title that the index resolves is stored under `(metric, unique_key)`. -/
def apply_item (lm : String → String → Option String) (metric lang : String)
    (results : List (String × ℚ)) (acc : List ((String × String) × ℚ)) :
    List ((String × String) × ℚ) :=
  results.foldl (fun a ts =>
    match lm ts.1 lang with
    | some uk => ((metric, uk), ts.2) :: a
    | none => a) acc

/-- Fold all completed work items into the accumulator. -/
def aggregate (lm : String → String → Option String)
    (items : List (String × String × List (String × ℚ))) :
    List ((String × String) × ℚ) :=
  items.foldl (fun acc it => apply_item lm it.1 it.2.1 it.2.2 acc) []

/-- Current value of one `(metric, unique_key)` cell of the accumulator. -/
def acc_get (acc : List ((String × String) × ℚ)) (key : String × String) :
    Option ℚ :=
  (acc.find? (fun e => decide (e.1 = key))).map (fun e => e.2)

/-- The `(metric, unique_key)` cells one result list writes through the
index. -/
def item_keys (lm : String → String → Option String) (metric lang : String)
    (results : List (String × ℚ)) : List (String × String) :=
  results.filterMap (fun ts => (lm ts.1 lang).map (fun uk => (metric, uk)))

/-- The `(metric, unique_key)` cells a work item on `batch` can write:
one per batch page that the index resolves. -/
def batch_keys (lm : String → String → Option String) (metric lang : String)
    (batch : List PageInfo) : List (String × String) :=
  batch.filterMap (fun p => (lm p.clean_title lang).map (fun uk => (metric, uk)))

/-! ## Protection collector (`protection.py`) -/

/-- The `LEVEL_SCORE` table of `protection.py`, mapping an edit-protection
level string to its numeric score. -/
def LEVEL_SCORE : List (String × ℚ) :=
  [("", 0), ("autoconfirmed", 1/4), ("editautopatrolprotected", 1/4),
   ("editextendedsemiprotected", 1/2), ("extendedconfirmed", 1/2),
   ("templateeditor", 3/4), ("editautoreviewprotected", 3/4), ("sysop", 1)]

/-- The `_score` helper of `protection.py`: `LEVEL_SCORE.get(level, 2)` —
a recognized protection level maps to its table entry, any other string
maps to the default `2`. -/
def _score (level : String) : ℚ := (LEVEL_SCORE.lookup level).getD 2

/-! ## Suspicious-sources collector (`blacklist_metric.py`) -/

/-- The user names counted by `get_monopolization_score`: revisions with a
truthy `user` field (absent and empty usernames are skipped by the
`if rev.get("user")` guard). -/
def revision_users (revs : List (Option String)) : List String :=
  (revs.filterMap id).filter (fun u => !u.isEmpty)

/-- `counts.most_common(1)[0][1]`: the largest multiplicity in the user
list. -/
def top_count (users : List String) : ℕ :=
  (users.map (fun u => users.count u)).foldr max 0

/-- `get_monopolization_score` on the fetched revision list of one page
(`none` models a missing page): it raises for a missing page or an empty
revision list; otherwise the proportion is `top_count / total`, where
`total` counts the user-attributed fetched revisions (`0.0` when there
are none). -/
def get_monopolization_score (fetched : Option (List (Option String))) :
    Except String ℚ :=
  match fetched with
  | none => Except.error "page introuvable"
  | some revs =>
    if revs.isEmpty then Except.error "aucune revision"
    else
      let users := revision_users revs
      let total := users.length
      if total = 0 then Except.ok 0
      else Except.ok ((top_count users : ℚ) / (total : ℚ))

/-- One page's entry of `get_monopolization_scores`: any exception from
the score computation becomes `0.0`. -/
def get_monopolization_scores_entry (fetched : Option (List (Option String))) : ℚ :=
  match get_monopolization_score fetched with
  | Except.ok q => q
  | Except.error _ => 0

/-- The metric as claim C9 words it: the top contributor's count divided
by the fixed constant `M = 10`. -/
def contributors_concentration_claim (revs : List (Option String)) : ℚ :=
  (top_count (revision_users revs) : ℚ) / 10

end Wikimetron

namespace Wikimetron

/-! ## Theorems -/

/-! ### Bounds for `calc_score` -/

/-- Every weight of the three hard-coded weight tables is positive. -/
lemma weight_tables_pos :
    (∀ mw ∈ HEAT_W, (0:ℚ) < mw.2) ∧ (∀ mw ∈ QUAL_W, (0:ℚ) < mw.2) ∧
      (∀ mw ∈ RISK_W, (0:ℚ) < mw.2) := by
  refine ⟨?_, ?_, ?_⟩ <;> (intro mw hmw; fin_cases hmw <;> norm_num)

/-- If all weights are positive and all cell values lie in `[0, 100]`, the
normalized category score produced by `calc_score` lies in `[0, 100]`. -/
lemma calc_score_mem_range (weights : List (String × ℚ)) (cols : List String)
    (vals : String → ℚ) (hw : ∀ mw ∈ weights, (0:ℚ) < mw.2)
    (hv : ∀ m : String, 0 ≤ vals m ∧ vals m ≤ 100) :
    0 ≤ (calc_score weights cols vals).1 ∧ (calc_score weights cols vals).1 ≤ 100 := by
  unfold calc_score
  set available := weights.filter (fun mw => cols.contains mw.1) with havail
  by_cases h : available.isEmpty
  · simp [h]
  · have hsub : ∀ mw ∈ available, mw ∈ weights := by
      intro mw hm
      exact List.mem_of_mem_filter (havail ▸ hm)
    have hw' : ∀ mw ∈ available, (0:ℚ) < mw.2 := fun mw hm => hw mw (hsub mw hm)
    have hne : available ≠ [] := by
      intro hnil
      rw [hnil] at h
      simp at h
    have hSw : 0 < (available.map (fun mw => mw.2)).sum := by
      apply List.sum_pos
      · intro x hx
        obtain ⟨mw, hm, rfl⟩ := List.mem_map.mp hx
        exact hw' mw hm
      · intro hmapnil
        exact hne (List.map_eq_nil_iff.mp hmapnil)
    have hraw0 : 0 ≤ (available.map (fun mw => mw.2 * vals mw.1)).sum := by
      apply List.sum_nonneg
      intro x hx
      obtain ⟨mw, hm, rfl⟩ := List.mem_map.mp hx
      exact mul_nonneg (le_of_lt (hw' mw hm)) (hv mw.1).1
    have hrawle : (available.map (fun mw => mw.2 * vals mw.1)).sum ≤
        100 * (available.map (fun mw => mw.2)).sum := by
      have hstep : (available.map (fun mw => mw.2 * vals mw.1)).sum ≤
          (available.map (fun mw => mw.2 * 100)).sum := by
        apply List.sum_le_sum
        intro mw hm
        exact mul_le_mul_of_nonneg_left (hv mw.1).2 (le_of_lt (hw' mw hm))
      have hmul : (available.map (fun mw => mw.2 * 100)).sum =
          (available.map (fun mw => mw.2)).sum * 100 := by
        rw [← List.sum_map_mul_right]
      rw [hmul] at hstep
      linarith
    simp only [h, Bool.false_eq_true, if_false]
    constructor
    · exact div_nonneg hraw0 (le_of_lt hSw)
    · rw [div_le_iff₀ hSw]
      linarith

/-- C1: for every metric-matrix row (any column set, any cell values), the
sensitivity assembled by the scorer equals the arithmetic mean of the heat,
quality and risk composite scores of that row. -/
theorem sensitivity_is_mean_of_composites (cols : List String) (vals : String → ℚ) :
    (compute_scores_page cols vals).sensitivity =
      ((compute_scores_page cols vals).heat + (compute_scores_page cols vals).quality +
        (compute_scores_page cols vals).risk) / 3 := by
  rfl

/-- C2 (counterexample): the protection collector's `_score` helper maps the
unrecognized level string `"editprotected"` to `2`, outside the claimed
collector range `[0, 1]`; feeding the resulting ×100 cell (`200`) into the
scorer together with otherwise maximal in-range cells produces a heat
composite strictly greater than `100`, refuting the claimed invariant. -/
theorem protection_unknown_level_breaks_range :
    _score "editprotected" = 2 ∧ ¬ (_score "editprotected" ≤ 1) ∧
      100 < (compute_scores_page metric_names
        (fun m => if m = "Protection" then 100 * _score "editprotected" else 100)).heat := by
  refine ⟨by rfl, ?_, ?_⟩ <;>
    (simp +decide [compute_scores_page, calc_score, _score, LEVEL_SCORE,
        List.lookup, HEAT_W, metric_names] <;> norm_num)

/-- C2 (amended): whenever every metric cell of a row lies in `[0, 100]`
(equivalently, every collector score lies in `[0, 1]` before the ×100
scaling), the four composite scores `heat`, `quality`, `risk` and
`sensitivity` computed by the scorer all lie in `[0, 100]`; and the
protection collector's `_score` does return a value in `[0, 1]` for every
level listed in `LEVEL_SCORE` — only unrecognized level strings escape
to the default `2`. -/
theorem composite_scores_in_range (cols : List String) (vals : String → ℚ)
    (h : ∀ m : String, 0 ≤ vals m ∧ vals m ≤ 100) :
    (0 ≤ (compute_scores_page cols vals).heat ∧ (compute_scores_page cols vals).heat ≤ 100) ∧
    (0 ≤ (compute_scores_page cols vals).quality ∧ (compute_scores_page cols vals).quality ≤ 100) ∧
    (0 ≤ (compute_scores_page cols vals).risk ∧ (compute_scores_page cols vals).risk ≤ 100) ∧
    (0 ≤ (compute_scores_page cols vals).sensitivity ∧
      (compute_scores_page cols vals).sensitivity ≤ 100) ∧
    (∀ lv ∈ LEVEL_SCORE, 0 ≤ _score lv.1 ∧ _score lv.1 ≤ 1) := by
  obtain ⟨hwH, hwQ, hwR⟩ := weight_tables_pos
  have hH := calc_score_mem_range HEAT_W cols vals hwH h
  have hQ := calc_score_mem_range QUAL_W cols vals hwQ h
  have hR := calc_score_mem_range RISK_W cols vals hwR h
  have hheat : (compute_scores_page cols vals).heat = (calc_score HEAT_W cols vals).1 := rfl
  have hqual : (compute_scores_page cols vals).quality = (calc_score QUAL_W cols vals).1 := rfl
  have hrisk : (compute_scores_page cols vals).risk = (calc_score RISK_W cols vals).1 := rfl
  have hsens : (compute_scores_page cols vals).sensitivity =
      ((calc_score HEAT_W cols vals).1 + (calc_score QUAL_W cols vals).1 +
        (calc_score RISK_W cols vals).1) / 3 := rfl
  refine ⟨⟨?_, ?_⟩, ⟨?_, ?_⟩, ⟨?_, ?_⟩, ⟨?_, ?_⟩, ?_⟩
  · rw [hheat]; exact hH.1
  · rw [hheat]; exact hH.2
  · rw [hqual]; exact hQ.1
  · rw [hqual]; exact hQ.2
  · rw [hrisk]; exact hR.1
  · rw [hrisk]; exact hR.2
  · rw [hsens]; linarith [hH.1, hQ.1, hR.1]
  · rw [hsens]; linarith [hH.2, hQ.2, hR.2]
  · intro lv hlv
    fin_cases hlv <;> refine ⟨?_, ?_⟩ <;>
      simp [_score, LEVEL_SCORE, List.lookup] <;> norm_num

/-- Witness for `composite_scores_in_range` at the all-zero row over the
full column set. -/
theorem composite_scores_in_range_witness :
    0 ≤ (compute_scores_page metric_names (fun _ => 0)).sensitivity ∧
      (compute_scores_page metric_names (fun _ => 0)).sensitivity ≤ 100 :=
  (composite_scores_in_range metric_names (fun _ => 0)
    (fun _ => ⟨le_refl 0, by norm_num⟩)).2.2.2.1

/-- C6 (counterexample): for fourteen one-language pages at batch size 2,
the work set `W` holds `16 × 7 = 112` items, so the claimed rule (size
from `|W| = 112 > 100`) would use 48 workers; the source sizes from its
`total_batches = 7` count of (language, batch) pairs and keeps the base
pool of 16. -/
theorem worker_pool_sizing_counterexample :
    total_batches (prepare_pages_with_languages
        ["A1", "A2", "A3", "A4", "A5", "A6", "A7", "A8", "A9", "A10",
         "A11", "A12", "A13", "A14"] "fr") 2 = 7 ∧
      (work_items (prepare_pages_with_languages
        ["A1", "A2", "A3", "A4", "A5", "A6", "A7", "A8", "A9", "A10",
         "A11", "A12", "A13", "A14"] "fr") 2).length = 112 ∧
      dynamic_workers (total_batches (prepare_pages_with_languages
        ["A1", "A2", "A3", "A4", "A5", "A6", "A7", "A8", "A9", "A10",
         "A11", "A12", "A13", "A14"] "fr") 2) MAX_WORKERS = 16 ∧
      dynamic_workers 112 MAX_WORKERS = 48 ∧ (16 : ℕ) ≠ 48 :=
  ⟨by decide, by decide, by decide, by decide, by decide⟩

/-- C6 (amended): the pool-scaling thresholds `(> 100 → min(3·W_base, 48);
> 50 → min(2·W_base, 32); else W_base)` are applied to `total_batches`,
the number of `(language, batch)` pairs — not to the cardinality of the
full Cartesian work set `W = {(metric, language, batch)}`, which is
exactly `16 · total_batches`. -/
theorem work_items_are_metrics_times_batches (page_infos : List PageInfo)
    (batch_size : ℕ) :
    (work_items page_infos batch_size).length
      = metric_names.length * total_batches page_infos batch_size := by
  unfold work_items total_batches
  rw [List.length_flatMap]
  have hinner : (List.map
      (List.length ∘ fun m =>
        (langs_of page_infos).flatMap fun l =>
          (split_pages_into_batches (lang_group page_infos l) batch_size).map
            (fun b => (m, l, b)))
      metric_names)
      = List.map (fun _ =>
          ((langs_of page_infos).map (fun l =>
            (split_pages_into_batches (lang_group page_infos l) batch_size).length)).sum)
        metric_names := by
    apply List.map_congr_left
    intro m _
    simp [Function.comp_def, List.length_flatMap]
  rw [hinner]
  simp [List.map_const', List.sum_replicate, smul_eq_mul]

/-! ### Aggregation lemmas for C10 -/

/-- A cell lookup after one accumulator prepend. -/
lemma acc_get_cons (k : String × String) (v : ℚ)
    (acc : List ((String × String) × ℚ)) (key : String × String) :
    acc_get ((k, v) :: acc) key = if k = key then some v else acc_get acc key := by
  by_cases h : k = key <;> simp [acc_get, List.find?, h]

/-- Writing a work item whose key set avoids `key` leaves the cell at
`key` unchanged. -/
lemma acc_get_apply_item_of_not_mem
    (lm : String → String → Option String) (metric lang : String)
    (results : List (String × ℚ)) (key : String × String)
    (h : key ∉ item_keys lm metric lang results) :
    ∀ acc, acc_get (apply_item lm metric lang results acc) key = acc_get acc key := by
  induction results with
  | nil => intro acc; rfl
  | cons ts rest ih =>
    intro acc
    cases hlm : lm ts.1 lang with
    | none =>
      have hrest : key ∉ item_keys lm metric lang rest := by
        simpa [item_keys, List.filterMap_cons, hlm] using h
      have : apply_item lm metric lang (ts :: rest) acc
          = apply_item lm metric lang rest acc := by
        simp [apply_item, hlm]
      rw [this]
      exact ih hrest acc
    | some uk =>
      have hne : (metric, uk) ≠ key := by
        intro hk
        exact h (by simp [item_keys, List.filterMap_cons, hlm, hk])
      have hrest : key ∉ item_keys lm metric lang rest := by
        intro hmem
        exact h (by simp [item_keys, List.filterMap_cons, hlm]; right; simpa [item_keys] using hmem)
      have hstep : apply_item lm metric lang (ts :: rest) acc
          = apply_item lm metric lang rest (((metric, uk), ts.2) :: acc) := by
        simp [apply_item, hlm]
      rw [hstep, ih hrest, acc_get_cons, if_neg hne]

/-- Writing the same work item into two accumulators that agree at `key`
preserves the agreement. -/
lemma acc_get_apply_item_congr
    (lm : String → String → Option String) (metric lang : String)
    (results : List (String × ℚ)) (key : String × String) :
    ∀ acc₁ acc₂, acc_get acc₁ key = acc_get acc₂ key →
      acc_get (apply_item lm metric lang results acc₁) key
        = acc_get (apply_item lm metric lang results acc₂) key := by
  induction results with
  | nil => intro _ _ h; exact h
  | cons ts rest ih =>
    intro acc₁ acc₂ h
    cases hlm : lm ts.1 lang with
    | none =>
      simpa [apply_item, hlm] using ih acc₁ acc₂ h
    | some uk =>
      have hstep : ∀ acc, apply_item lm metric lang (ts :: rest) acc
          = apply_item lm metric lang rest (((metric, uk), ts.2) :: acc) := by
        intro acc; simp [apply_item, hlm]
      rw [hstep, hstep]
      apply ih
      rw [acc_get_cons, acc_get_cons]
      by_cases hk : (metric, uk) = key <;> simp [hk, h]

/-- Folding the same tail of work items over two accumulators that agree
at `key` preserves the agreement. -/
lemma acc_get_foldl_congr (lm : String → String → Option String)
    (items : List (String × String × List (String × ℚ))) (key : String × String) :
    ∀ acc₁ acc₂, acc_get acc₁ key = acc_get acc₂ key →
      acc_get (items.foldl (fun acc it => apply_item lm it.1 it.2.1 it.2.2 acc) acc₁) key
        = acc_get (items.foldl (fun acc it => apply_item lm it.1 it.2.1 it.2.2 acc) acc₂) key := by
  induction items with
  | nil => intro _ _ h; exact h
  | cons it rest ih =>
    intro acc₁ acc₂ h
    exact ih _ _ (acc_get_apply_item_congr lm it.1 it.2.1 it.2.2 key acc₁ acc₂ h)

/-- Whatever the collector outcome, the executor's result list writes
exactly the cells of its batch. -/
lemma item_keys_execute (lm : String → String → Option String)
    (metric lang : String) (out : Except String (List (String × ℚ)))
    (batch : List PageInfo) :
    item_keys lm metric lang (execute_work_item out batch)
      = batch_keys lm metric lang batch := by
  cases out <;>
    simp [item_keys, execute_work_item, finalize_batch, batch_keys,
      List.filterMap_map, Function.comp_def]

/-- C10: the work-item executor never propagates a collector exception: a
raising collector yields the all-zero map over exactly its batch's pages;
and in the result aggregation, any cell outside the failing item's own key
set has the same value whether that item failed or returned any successful
result — other work items are unaffected. -/
theorem work_item_failure_contained :
    (∀ (e : String) (batch : List PageInfo),
      execute_work_item (Except.error e) batch
        = batch.map (fun p => (p.clean_title, 0))) ∧
    (∀ (lm : String → String → Option String)
      (pre post : List (String × String × List (String × ℚ)))
      (metric lang : String) (batch : List PageInfo)
      (out₁ out₂ : Except String (List (String × ℚ))) (key : String × String),
      key ∉ batch_keys lm metric lang batch →
      acc_get (aggregate lm
          (pre ++ (metric, lang, execute_work_item out₁ batch) :: post)) key
        = acc_get (aggregate lm
          (pre ++ (metric, lang, execute_work_item out₂ batch) :: post)) key) := by
  constructor
  · intro e batch; rfl
  · intro lm pre post metric lang batch out₁ out₂ key hkey
    unfold aggregate
    rw [List.foldl_append, List.foldl_append]
    simp only [List.foldl_cons]
    apply acc_get_foldl_congr
    have h₁ : key ∉ item_keys lm metric lang (execute_work_item out₁ batch) := by
      rw [item_keys_execute]; exact hkey
    have h₂ : key ∉ item_keys lm metric lang (execute_work_item out₂ batch) := by
      rw [item_keys_execute]; exact hkey
    rw [acc_get_apply_item_of_not_mem lm metric lang _ key h₁,
      acc_get_apply_item_of_not_mem lm metric lang _ key h₂]

/-- Witness for `work_item_failure_contained`: with one completed
Sockpuppets item over a one-page `de` batch, the cell of a different
metric reads the same whether the item failed or succeeded. -/
theorem work_item_failure_contained_witness :
    acc_get (aggregate
        (lookup_map_of [⟨"Berlin", "Berlin", "de", "Berlin___de"⟩])
        ([] ++ ("Sockpuppets", "de",
          execute_work_item (Except.error "boom")
            [⟨"Berlin", "Berlin", "de", "Berlin___de"⟩]) :: []))
      ("Views spikes", "Berlin___de")
    = acc_get (aggregate
        (lookup_map_of [⟨"Berlin", "Berlin", "de", "Berlin___de"⟩])
        ([] ++ ("Sockpuppets", "de",
          execute_work_item (Except.ok [("Berlin", 1)])
            [⟨"Berlin", "Berlin", "de", "Berlin___de"⟩]) :: []))
      ("Views spikes", "Berlin___de") :=
  work_item_failure_contained.2
    (lookup_map_of [⟨"Berlin", "Berlin", "de", "Berlin___de"⟩]) [] []
    "Sockpuppets" "de" [⟨"Berlin", "Berlin", "de", "Berlin___de"⟩]
    (Except.error "boom") (Except.ok [("Berlin", 1)])
    ("Views spikes", "Berlin___de") (by decide)

/-- C3: the Staleness dispatch of the pipeline passes four positional
arguments to the three-parameter `get_recency_score`, so every Staleness
work item raises `TypeError` before the collector body is entered, and the
executor maps every page of the batch to `0.0` — the claimed
10th-revision / 365-day ageing rule is never evaluated. -/
theorem staleness_call_always_fails (collector_result : List (String × ℚ))
    (batch : List PageInfo) :
    get_recency_score_params < staleness_call_arg_count ∧
      py_call get_recency_score_required get_recency_score_params
          staleness_call_arg_count collector_result
        = Except.error "TypeError" ∧
      execute_staleness_item collector_result batch
        = batch.map (fun p => (p.clean_title, 0)) :=
  ⟨by decide, rfl, rfl⟩

/-- C5: in the Sockpuppets dispatch `metric_func(titles, extra_args[0],
lang)`, the batch's language binds to the collector's `users` parameter,
while its `lang` parameter keeps the default `"fr"`; `get_page_contributors`
therefore always queries `fr.wikipedia.org`, which for any non-`fr` batch
is a different host than the batch's own language edition. -/
theorem sockpuppets_ignores_batch_language (titles : List String)
    (csv_path lang : String) :
    (sockpuppets_call_bindings titles csv_path lang).lookup "lang"
        = some (PyArg.vstr "fr") ∧
      (sockpuppets_call_bindings titles csv_path lang).lookup "users"
        = some (PyArg.vstr lang) ∧
      get_page_contributors_api_url "fr" = "https://fr.wikipedia.org/w/api.php" ∧
      get_page_contributors_api_url "fr" ≠ get_page_contributors_api_url "de" :=
  ⟨rfl, rfl, rfl, by decide⟩

/-- C9 (counterexample): a page with five fetched revisions, all by one
contributor, scores `5/5 = 1.0` — not the `5/10 = 0.5` that a fixed
denominator of `M = 10` would give. -/
theorem monopolization_denominator_counterexample :
    get_monopolization_scores_entry (some (List.replicate 5 (some "Alice"))) = 1 ∧
      contributors_concentration_claim (List.replicate 5 (some "Alice")) = 1/2 ∧
      (1 : ℚ) ≠ 1/2 := by
  refine ⟨?_, ?_, by norm_num⟩ <;>
    (simp +decide [get_monopolization_scores_entry, get_monopolization_score,
      contributors_concentration_claim, revision_users, top_count] <;> norm_num)

/-- All values of a fold with `max` stay below any common bound. -/
lemma foldr_max_le (l : List ℕ) (n : ℕ) (h : ∀ x ∈ l, x ≤ n) :
    l.foldr max 0 ≤ n := by
  induction l with
  | nil => exact Nat.zero_le n
  | cons a t ih =>
    simp only [List.foldr_cons]
    exact max_le (h a (by simp)) (ih (fun x hx => h x (by simp [hx])))

/-- The top contributor's count never exceeds the fetched total. -/
lemma top_count_le_length (users : List String) :
    top_count users ≤ users.length := by
  apply foldr_max_le
  intro x hx
  obtain ⟨u, _, rfl⟩ := List.mem_map.mp hx
  exact List.count_le_length u users

/-- C9 (amended): for a page whose fetched revision window holds at least
one user-attributed revision, the Contributors-concentration score is the
top contributor's count divided by the number of user-attributed fetched
revisions (at most the `rvlimit` of 10) — not by the fixed constant 10 —
and the score therefore never exceeds 1. -/
theorem monopolization_divides_by_fetched_count (revs : List (Option String))
    (h : revision_users revs ≠ []) :
    get_monopolization_scores_entry (some revs)
        = (top_count (revision_users revs) : ℚ) / ((revision_users revs).length : ℚ) ∧
      get_monopolization_scores_entry (some revs) ≤ 1 := by
  have hrevs : ¬ revs.isEmpty := by
    intro hempty
    rw [List.isEmpty_iff] at hempty
    subst hempty
    exact h rfl
  have htot : (revision_users revs).length ≠ 0 := by
    intro h0
    exact h (List.eq_nil_of_length_eq_zero h0)
  have hval : get_monopolization_scores_entry (some revs)
      = (top_count (revision_users revs) : ℚ) / ((revision_users revs).length : ℚ) := by
    unfold get_monopolization_scores_entry get_monopolization_score
    simp [hrevs, htot]
  refine ⟨hval, ?_⟩
  rw [hval]
  have hpos : (0 : ℚ) < ((revision_users revs).length : ℚ) := by
    exact_mod_cast Nat.pos_of_ne_zero htot
  rw [div_le_one hpos]
  exact_mod_cast top_count_le_length (revision_users revs)

/-- Witness for `monopolization_divides_by_fetched_count` at a single
revision by one user. -/
theorem monopolization_divides_by_fetched_count_witness :
    get_monopolization_scores_entry (some [some "Alice"])
        = (top_count (revision_users [some "Alice"]) : ℚ)
            / ((revision_users [some "Alice"]).length : ℚ) ∧
      get_monopolization_scores_entry (some [some "Alice"]) ≤ 1 :=
  monopolization_divides_by_fetched_count [some "Alice"] (by decide)

end Wikimetron
